import Mathlib

/-!
Shallow embedding of the TVB project import pipeline
(`framework_tvb/tvb/core/services/import_service.py`, class `ImportService`),
together with theorems checking the specification claims about it.

The filesystem is modelled as a list of existing paths, the persistence layer
as explicit lists of rows, and each external collaborator (archive unpacker,
format upgrader, H5 classifier, XML reader) as an input describing the outcome
the collaborator produces for the data at hand.  All definitions follow the
Python source line by line; comments cite the source lines they embed.
-/

/-- Abstract filesystem: the list of paths that currently exist. -/
abbrev FS := List String

/-- Create a path if it does not exist yet (mkdir / file creation). -/
def insertPath (p : String) (fs : FS) : FS :=
  if p ∈ fs then fs else p :: fs

/-- Forcibly delete a path (`os.remove` / `shutil.rmtree`). -/
def removePath (p : String) (fs : FS) : FS :=
  fs.filter (fun q => q != p)

/-- Errors raised out of the service, as in
`tvb.core.services.exceptions`: `import_project_structure` rewraps any
failure into `ImportException` (line 143) and
`import_simulator_configuration_zip` raises `ServicesBaseException`
(lines 463, 474). -/
inductive ImportError
  | importException (msg : String)
  | servicesBaseException (msg : String)
deriving DecidableEq

/-- The staging folder computed by `_compute_unpack_path` (lines 97-106):
a time-based unique name under the temp root.  One call, one fixed name. -/
def tvbTempFolder : String := "TVB_TEMP/2020-1-1_10-0-0_0-ImportProject"

/-- The staged archive copy `uq_file_name = temp_folder + ".zip"` (line 127). -/
def uqFileName : String := tvbTempFolder ++ ".zip"

/-- Final storage directory of a project:
`os.path.join(TVB_STORAGE, PROJECTS_FOLDER, project.name)` (line 141). -/
def projectPath (name : String) : String := "TVB_STORAGE/PROJECTS/" ++ name

/-- Which step of importing one project root fails, if any.  The steps are
those of `_import_projects_from_folder` (lines 162-174): run updates,
populate the project (appending it to `created_projects` on success, line
167), ensure its folder (line 169), import operations, import images. -/
inductive RootOutcome
  | updateFails
  | populateFails
  | operationsFail
  | imagesFail
  | allOk
deriving DecidableEq

/-- One project root found in the staged tree, with the outcome its
collaborators produce during this call. -/
structure ProjectRootSpec where
  name : String
  outcome : RootOutcome
deriving DecidableEq

/-- Call-scoped mutable state of `ImportService` during one
`import_project_structure` call: the filesystem and `self.created_projects`
(reset at line 123, appended at line 167). -/
structure ImportState where
  fs : FS
  createdProjects : List String
deriving DecidableEq

/-- Import a single project root (body of the loop at lines 162-174).
Returns the state after the attempt and the error message if it raised.
`run_all_updates` and `__populate_project` fail before the project is
appended to `created_projects`; once appended, its final folder exists
(`get_project_folder` at line 169 creates it), and a later failure leaves
both the list entry and the folder behind. -/
def importOneRoot (s : ImportState) (r : ProjectRootSpec) : ImportState × Option String :=
  match r.outcome with
  | .updateFails => (s, some "project root could not be upgraded")
  | .populateFails => (s, some "There is already a project with the same name or gid.")
  | .operationsFail =>
      ({ fs := insertPath (projectPath r.name) s.fs
         createdProjects := s.createdProjects ++ [r.name] },
       some "failure while importing operations")
  | .imagesFail =>
      ({ fs := insertPath (projectPath r.name) s.fs
         createdProjects := s.createdProjects ++ [r.name] },
       some "failure while importing images")
  | .allOk =>
      ({ fs := insertPath (projectPath r.name) s.fs
         createdProjects := s.createdProjects ++ [r.name] },
       none)

/-- Source `_import_projects_from_folder` (lines 153-174): import each discovered
root in turn, stopping at the first failure. -/
def importRootsFrom (s : ImportState) : List ProjectRootSpec → ImportState × Option String
  | [] => (s, none)
  | r :: rest =>
    match importOneRoot s r with
    | (s1, none) => importRootsFrom s1 rest
    | (s1, some e) => (s1, some e)

/-- Observable outcome of one `import_project_structure` call. -/
structure ImportOutcome where
  error : Option ImportError
  fs : FS
  created : List String
deriving DecidableEq

/-- Source `import_project_structure` (lines 108-151).  The archive copy is made
(line 130 via `_download_and_unpack_project_zip`), the zip is unpacked into
the staging folder (or raises, line 95), the roots are imported; the
`except` block (lines 133-143) deletes every created project folder and
rewraps the error as `ImportException`; the `finally` block (lines 145-151)
removes the staged archive and the staging folder unconditionally.
`importAttempt` is the `try` block (lines 129-131): copy the archive,
unpack it (possibly raising) and import the discovered roots. -/
def importAttempt (fs0 : FS) (unzipFails : Bool)
    (roots : List ProjectRootSpec) : ImportState × Option String :=
  let fs1 := insertPath uqFileName fs0
  if unzipFails then
    ({ fs := fs1, createdProjects := [] },
     some "Bad ZIP archive provided. A TVB exported project is expected!")
  else
    importRootsFrom { fs := insertPath tvbTempFolder fs1, createdProjects := [] } roots

def import_project_structure (fs0 : FS) (unzipFails : Bool)
    (roots : List ProjectRootSpec) : ImportOutcome :=
  match importAttempt fs0 unzipFails roots with
  | (s, none) =>
      { error := none
        fs := removePath tvbTempFolder (removePath uqFileName s.fs)
        created := s.createdProjects }
  | (s, some e) =>
      let fsClean := s.createdProjects.foldl (fun fs n => removePath (projectPath n) fs) s.fs
      { error := some (ImportError.importException e)
        fs := removePath tvbTempFolder (removePath uqFileName fsClean)
        created := s.createdProjects }

theorem mem_of_mem_removePath {p q : String} {fs : FS}
    (h : p ∈ removePath q fs) : p ∈ fs :=
  (List.mem_filter.mp h).1

theorem notMem_removePath_self (p : String) (fs : FS) : p ∉ removePath p fs := by
  intro h
  have := (List.mem_filter.mp h).2
  simp at this

theorem notMem_removePath_of_notMem {p q : String} {fs : FS}
    (h : p ∉ fs) : p ∉ removePath q fs :=
  fun hmem => h (mem_of_mem_removePath hmem)

theorem notMem_cleanup_fold {p : String} {l : List String} {fs : FS}
    (h : p ∉ fs) :
    p ∉ l.foldl (fun fs n => removePath (projectPath n) fs) fs := by
  induction l generalizing fs with
  | nil => exact h
  | cons n rest ih => exact ih (notMem_removePath_of_notMem h)

theorem notMem_cleanup_fold_of_mem {n : String} {l : List String} {fs : FS}
    (h : n ∈ l) :
    projectPath n ∉ l.foldl (fun fs m => removePath (projectPath m) fs) fs := by
  induction l generalizing fs with
  | nil => cases h
  | cons m rest ih =>
    rw [List.foldl_cons]
    rcases List.mem_cons.mp h with rfl | hrest
    · exact notMem_cleanup_fold (notMem_removePath_self _ _)
    · exact ih hrest

/-- C1: if `import_project_structure` raises after some projects were
created during the call, then every one of those projects has its final
storage directory deleted before the call returns, and the error reaching
the caller is a single `ImportException` (lines 129-143). -/
theorem c1_rollback_deletes_created_project_folders
    (fs0 : FS) (unzipFails : Bool) (roots : List ProjectRootSpec) (e : ImportError)
    (h : (import_project_structure fs0 unzipFails roots).error = some e) :
    (∃ msg, e = ImportError.importException msg) ∧
    ∀ n ∈ (import_project_structure fs0 unzipFails roots).created,
      projectPath n ∉ (import_project_structure fs0 unzipFails roots).fs := by
  unfold import_project_structure at h ⊢
  rcases hS : importAttempt fs0 unzipFails roots with ⟨s, eopt⟩
  rw [hS] at h
  cases eopt with
  | none => simp at h
  | some msg =>
    refine ⟨⟨msg, ?_⟩, ?_⟩
    · simpa using h.symm
    · intro n hn
      simp only at hn ⊢
      exact notMem_removePath_of_notMem
        (notMem_removePath_of_notMem (notMem_cleanup_fold_of_mem hn))

theorem c1_rollback_witness :
    (∃ msg, ImportError.importException "failure while importing operations"
        = ImportError.importException msg) ∧
    ∀ n ∈ (import_project_structure [] false
        [⟨"P1", RootOutcome.operationsFail⟩]).created,
      projectPath n ∉ (import_project_structure [] false
        [⟨"P1", RootOutcome.operationsFail⟩]).fs :=
  c1_rollback_deletes_created_project_folders [] false
    [⟨"P1", RootOutcome.operationsFail⟩]
    (ImportError.importException "failure while importing operations") (by decide)

/-- C5: whether the call returns normally or raises, the staged archive
file and the staging directory no longer exist after
`import_project_structure` returns (the `finally` block, lines 145-151). -/
theorem c5_staging_artifacts_always_removed
    (fs0 : FS) (unzipFails : Bool) (roots : List ProjectRootSpec) :
    uqFileName ∉ (import_project_structure fs0 unzipFails roots).fs ∧
    tvbTempFolder ∉ (import_project_structure fs0 unzipFails roots).fs := by
  unfold import_project_structure
  rcases hS : importAttempt fs0 unzipFails roots with ⟨s, eopt⟩
  cases eopt with
  | none =>
    exact ⟨notMem_removePath_of_notMem (notMem_removePath_self _ _),
      notMem_removePath_self _ _⟩
  | some msg =>
    exact ⟨notMem_removePath_of_notMem (notMem_removePath_self _ _),
      notMem_removePath_self _ _⟩

/-- A persisted DataType index row: its id, global id (`gid`, the
deduplication key) and recovered creation date (`create_date`, possibly
missing, line 201). -/
structure DataTypeIndexRow where
  id : Nat
  gid : String
  create_date : Option Nat
deriving DecidableEq

/-- The persistence layer state seen by the dedup step: stored DataType
rows and link rows `(datatype id, project id)`. -/
structure DbState where
  datatypes : List DataTypeIndexRow
  links : List (Nat × Nat)
deriving DecidableEq

/-- Source `dao.get_datatype_by_gid` (line 205): look a stored row up by gid. -/
def get_datatype_by_gid (rows : List DataTypeIndexRow) (g : String) :
    Option DataTypeIndexRow :=
  rows.find? (fun d => d.gid == g)

/-- Source `store_datatype` (lines 393-397): persist the row. -/
def store_datatype (db : DbState) (dt : DataTypeIndexRow) : DbState :=
  { db with datatypes := db.datatypes ++ [dt] }

/-- Source `AlgorithmService.create_link([existing.id], project.id)` (line 209). -/
def create_link (existingId projectId : Nat) (db : DbState) : DbState :=
  { db with links := db.links ++ [(existingId, projectId)] }

/-- Body of the loop in `_store_imported_datatypes_in_db` (lines 204-209):
store the item as new when no row with its gid exists, otherwise create a
link from the existing row to the importing project. -/
def dedupStoreOne (projectId : Nat) (db : DbState) (dt : DataTypeIndexRow) : DbState :=
  match get_datatype_by_gid db.datatypes dt.gid with
  | none => store_datatype db dt
  | some existing => create_link existing.id projectId db

/-- Sort key `by_time` (lines 200-201): `dt.create_date or datetime.now()`. -/
def by_time (now : Nat) (dt : DataTypeIndexRow) : Nat :=
  dt.create_date.getD now

/-- Source `_store_imported_datatypes_in_db` (lines 199-209): sort the batch by
creation date (missing date defaults to now), then store or link each. -/
def store_imported_datatypes_in_db (now projectId : Nat) (db : DbState)
    (all_datatypes : List DataTypeIndexRow) : DbState :=
  (all_datatypes.mergeSort (fun a b => Nat.ble (by_time now a) (by_time now b))).foldl
    (dedupStoreOne projectId) db

theorem gid_notMem_of_find_none {rows : List DataTypeIndexRow} {g : String}
    (h : get_datatype_by_gid rows g = none) :
    g ∉ rows.map DataTypeIndexRow.gid := by
  intro hmem
  rcases List.mem_map.mp hmem with ⟨d, hd, hgid⟩
  have := List.find?_eq_none.mp h d hd
  simp [hgid] at this

theorem dedupStoreOne_nodup {projectId : Nat} {db : DbState} {dt : DataTypeIndexRow}
    (h : (db.datatypes.map DataTypeIndexRow.gid).Nodup) :
    ((dedupStoreOne projectId db dt).datatypes.map DataTypeIndexRow.gid).Nodup := by
  unfold dedupStoreOne
  rcases hF : get_datatype_by_gid db.datatypes dt.gid with _ | existing
  · simp only [store_datatype, List.map_append, List.map_cons, List.map_nil]
    rw [List.nodup_append]
    refine ⟨h, List.nodup_singleton _, ?_⟩
    intro a ha hb
    rw [List.mem_singleton] at hb
    subst hb
    exact gid_notMem_of_find_none hF ha
  · simpa [create_link] using h

theorem dedup_fold_nodup {projectId : Nat} {l : List DataTypeIndexRow} {db : DbState}
    (h : (db.datatypes.map DataTypeIndexRow.gid).Nodup) :
    (((l.foldl (dedupStoreOne projectId) db)).datatypes.map DataTypeIndexRow.gid).Nodup := by
  induction l generalizing db with
  | nil => exact h
  | cons dt rest ih =>
    rw [List.foldl_cons]
    exact ih (dedupStoreOne_nodup h)

/-- C2: per loaded item, an existing row with the same gid leads to a link
to the importing project with nothing stored, a missing gid leads to a
fresh store (lines 204-209); consequently a gid-duplicate-free store stays
gid-duplicate-free across the whole batch. -/
theorem c2_dedup_store_or_link
    (now projectId : Nat) (db : DbState) (dt : DataTypeIndexRow)
    (all_datatypes : List DataTypeIndexRow)
    (hnodup : (db.datatypes.map DataTypeIndexRow.gid).Nodup) :
    (get_datatype_by_gid db.datatypes dt.gid = none →
      dedupStoreOne projectId db dt = store_datatype db dt) ∧
    (∀ existing, get_datatype_by_gid db.datatypes dt.gid = some existing →
      dedupStoreOne projectId db dt = create_link existing.id projectId db) ∧
    ((store_imported_datatypes_in_db now projectId db all_datatypes).datatypes.map
        DataTypeIndexRow.gid).Nodup := by
  refine ⟨fun hnone => ?_, fun existing hsome => ?_, ?_⟩
  · simp [dedupStoreOne, hnone]
  · simp [dedupStoreOne, hsome]
  · exact dedup_fold_nodup hnodup

theorem c2_dedup_witness :
    (get_datatype_by_gid (DbState.mk [⟨1, "g1", some 5⟩] []).datatypes "g2" = none →
      dedupStoreOne 7 (DbState.mk [⟨1, "g1", some 5⟩] []) ⟨2, "g2", none⟩
        = store_datatype (DbState.mk [⟨1, "g1", some 5⟩] []) ⟨2, "g2", none⟩) ∧
    (∀ existing,
      get_datatype_by_gid (DbState.mk [⟨1, "g1", some 5⟩] []).datatypes "g2" = some existing →
      dedupStoreOne 7 (DbState.mk [⟨1, "g1", some 5⟩] []) ⟨2, "g2", none⟩
        = create_link existing.id 7 (DbState.mk [⟨1, "g1", some 5⟩] [])) ∧
    ((store_imported_datatypes_in_db 9 7 (DbState.mk [⟨1, "g1", some 5⟩] [])
        [⟨2, "g2", none⟩, ⟨3, "g1", some 4⟩]).datatypes.map DataTypeIndexRow.gid).Nodup :=
  c2_dedup_store_or_link 9 7 (DbState.mk [⟨1, "g1", some 5⟩] []) ⟨2, "g2", none⟩
    [⟨2, "g2", none⟩, ⟨3, "g1", some 4⟩] (by decide)

/-- Outcome of handling one H5 file inside `get_directory_ordered_list`
(lines 230-239) and the modern import path (lines 272-288).
`viewModel` carries the `create_date` read from the metadata header (line
236) and whether its view-model type is a key of `VIEW_MODEL2ADAPTER`
(line 281); `dataProduct` is an H5 file whose class is not `ViewModelH5`;
`unreadable` means classification or metadata reading raised, which the
code turns into a warning (lines 238-239, 287-288). -/
inductive H5FileKind
  | viewModel (create_date : Nat) (knownAdapter : Bool)
  | dataProduct
  | unreadable
deriving DecidableEq

/-- One folder yielded by `os.walk` over the effective import path, as seen
by `get_directory_ordered_list` (lines 222-241): its path (as segments),
whether `Operation.xml` is among its files, the `create_date` parsed from
that XML by `__build_operation_from_file` (line 228, meaningful only when
the XML is present), and its `*.h5` files in listing order. -/
structure OpFolder where
  path : List String
  hasOperationXml : Bool
  xmlCreateDate : Nat
  files : List H5FileKind
deriving DecidableEq

/-- The date keying a folder without `Operation.xml`: the first file that
classifies as `ViewModelH5` wins, because the `root not in directory_list`
guard (line 231) stops later files from rekeying the folder; unreadable
files are skipped with a warning (lines 238-239). -/
def firstViewModelDate : List H5FileKind → Option Nat
  | [] => none
  | H5FileKind.viewModel d _ :: _ => some d
  | H5FileKind.dataProduct :: rest => firstViewModelDate rest
  | H5FileKind.unreadable :: rest => firstViewModelDate rest

/-- The ordering key of one folder (lines 225-237): the XML branch wins
when `Operation.xml` is present, otherwise the first view-model file keys
the folder; `none` means the folder is not keyed at all. -/
def folderKey (f : OpFolder) : Option Nat :=
  if f.hasOperationXml then some f.xmlCreateDate else firstViewModelDate f.files

/-- The keyed `(root, date)` pairs in walk order (`directory_list`,
lines 223-239). -/
def keyedFolders (folders : List OpFolder) : List (List String × Nat) :=
  folders.filterMap (fun f => (folderKey f).map (fun d => (f.path, d)))

/-- Comparison used by `sorted(directory_list.items(), key=lambda tup:
tup[1])` (line 240): compare the creation dates. -/
def dateLe (a b : List String × Nat) : Prop := a.2 ≤ b.2

instance : DecidableRel dateLe := fun a b => Nat.decLe a.2 b.2

instance : IsTotal (List String × Nat) dateLe := ⟨fun a b => Nat.le_total a.2 b.2⟩

instance : IsTrans (List String × Nat) dateLe := ⟨fun a b c => Nat.le_trans⟩

/-- Source `get_directory_ordered_list` (lines 222-241): stable-sort the keyed
folders ascending by date (`sorted(directory_list.items(), key=...)`,
line 240) and return the folder paths. -/
def get_directory_ordered_list (folders : List OpFolder) : List (List String) :=
  (List.insertionSort dateLe (keyedFolders folders)).map Prod.fst

theorem keyed_mem_of_folderKey {folders : List OpFolder} {f : OpFolder} {d : Nat}
    (hf : f ∈ folders) (hk : folderKey f = some d) :
    (f.path, d) ∈ keyedFolders folders :=
  List.mem_filterMap.mpr ⟨f, hf, by rw [hk]; rfl⟩

theorem keyed_elim {folders : List OpFolder} {pr : List String × Nat}
    (h : pr ∈ keyedFolders folders) :
    ∃ g ∈ folders, g.path = pr.1 ∧ folderKey g = some pr.2 := by
  rcases List.mem_filterMap.mp h with ⟨g, hg, hmap⟩
  rcases hk : folderKey g with _ | d
  · rw [hk] at hmap; cases hmap
  · rw [hk] at hmap
    have hpr : (g.path, d) = pr := Option.some.inj hmap
    exact ⟨g, hg, by rw [← hpr], by rw [hk, ← hpr]⟩

/-- C3: `get_directory_ordered_list` returns the qualifying folders sorted
ascending by their recovered creation date; a folder with `Operation.xml`
is keyed by the date parsed from the XML (the XML branch wins even when
view-model files are also present), a folder without it is keyed by the
first classifiable view-model file's metadata date, and a folder with no
key (for example all of its H5 files are unreadable) is excluded from the
result with only a warning (lines 222-241). -/
theorem c3_directory_ordered_list
    (folders : List OpFolder)
    (hnodup : (folders.map OpFolder.path).Nodup) :
    (List.insertionSort dateLe (keyedFolders folders)).Pairwise
      (fun a b => a.2 ≤ b.2) ∧
    (∀ f ∈ folders, f.hasOperationXml = true → folderKey f = some f.xmlCreateDate) ∧
    (∀ f ∈ folders, f.hasOperationXml = false →
      folderKey f = firstViewModelDate f.files) ∧
    (∀ f ∈ folders, ∀ d, folderKey f = some d →
      f.path ∈ get_directory_ordered_list folders) ∧
    (∀ f ∈ folders, folderKey f = none →
      f.path ∉ get_directory_ordered_list folders) := by
  refine ⟨?_, ?_, ?_, ?_, ?_⟩
  · exact (List.sorted_insertionSort dateLe (keyedFolders folders)).imp (fun h => h)
  · intro f _ hx
    simp [folderKey, hx]
  · intro f _ hx
    simp [folderKey, hx]
  · intro f hf d hk
    unfold get_directory_ordered_list
    exact List.mem_map.mpr ⟨(f.path, d),
      (List.perm_insertionSort dateLe (keyedFolders folders)).mem_iff.mpr
        (keyed_mem_of_folderKey hf hk), rfl⟩
  · intro f hf hk hmem
    unfold get_directory_ordered_list at hmem
    rcases List.mem_map.mp hmem with ⟨pr, hpr, hfst⟩
    rcases keyed_elim
      ((List.perm_insertionSort dateLe (keyedFolders folders)).mem_iff.mp hpr)
      with ⟨g, hg, hpath, hkey⟩
    have : g = f :=
      List.inj_on_of_nodup_map hnodup hg hf (by rw [hpath, hfst])
    rw [this, hk] at hkey
    cases hkey

/-- A small concrete walk used to instantiate the ordering theorems: an XML
folder that also holds a view-model file, a view-model folder whose first
H5 file is unreadable, and a folder with only unreadable H5 files. -/
def exampleWalkFolders : List OpFolder :=
  [⟨["Proj", "Op1"], true, 5, [H5FileKind.viewModel 99 true]⟩,
   ⟨["Proj", "Op2"], false, 0, [H5FileKind.unreadable, H5FileKind.viewModel 3 false]⟩,
   ⟨["Proj", "Op3"], false, 0, [H5FileKind.unreadable, H5FileKind.dataProduct]⟩]

theorem c3_directory_ordered_list_witness :
    (List.insertionSort dateLe (keyedFolders exampleWalkFolders)).Pairwise
      (fun a b => a.2 ≤ b.2) ∧
    (∀ f ∈ exampleWalkFolders, f.hasOperationXml = true →
      folderKey f = some f.xmlCreateDate) ∧
    (∀ f ∈ exampleWalkFolders, f.hasOperationXml = false →
      folderKey f = firstViewModelDate f.files) ∧
    (∀ f ∈ exampleWalkFolders, ∀ d, folderKey f = some d →
      f.path ∈ get_directory_ordered_list exampleWalkFolders) ∧
    (∀ f ∈ exampleWalkFolders, folderKey f = none →
      f.path ∉ get_directory_ordered_list exampleWalkFolders) :=
  c3_directory_ordered_list exampleWalkFolders (by decide)

/-- The absolute path assigned to `import_path` at line 248 of
`import_project_operations`, overwriting the argument before any use. -/
def hardcoded_operations_path : String :=
  "C:\\Users\\adrian.dordea\\PycharmProjects\\TestDefaultData\\Default_Project - Copy"

/-- The import path `import_project_operations` actually hands to
`get_directory_ordered_list` (lines 243-249): the parameter is reassigned
to the fixed absolute path at line 248, so the argument is ignored. -/
def effective_operations_import_path (import_path : String) : String :=
  hardcoded_operations_path

/-- C4: `import_project_operations` does not scan the staged project root
it is given; line 248 overwrites `import_path` with a fixed absolute path,
so the ordered folder sequence is computed from that fixed location.  The
docstring of the function (lines 244-246) says it scans the provided
folder, so this is a defect in the code, not in the claim. -/
theorem c4_import_path_is_overridden :
    effective_operations_import_path "/tmp/ImportProject/Project_X"
      = hardcoded_operations_path ∧
    effective_operations_import_path "/tmp/ImportProject/Project_X"
      ≠ "/tmp/ImportProject/Project_X" := by
  constructor
  · rfl
  · decide

/-- Whether the scan at lines 272-288 finds a main view model: the first
view-model file that loads and whose type is a key of `VIEW_MODEL2ADAPTER`
(lines 279-282); files whose classification or load raises are skipped
with a warning (lines 287-288). -/
def hasMainViewModel : List H5FileKind → Bool
  | [] => false
  | H5FileKind.viewModel _ known :: rest => known || hasMainViewModel rest
  | H5FileKind.dataProduct :: rest => hasMainViewModel rest
  | H5FileKind.unreadable :: rest => hasMainViewModel rest

/-- The legacy branch of `import_project_operations` is taken exactly when
`Operation.xml` is among the folder files (line 254). -/
def legacyPathTaken (f : OpFolder) : Bool := f.hasOperationXml

/-- The modern branch (lines 268-315) creates an operation exactly when no
`Operation.xml` is present and a main view model is found (line 290). -/
def modernPathTaken (f : OpFolder) : Bool :=
  !f.hasOperationXml && hasMainViewModel f.files

/-- A folder visit results in an imported operation when either branch
fires; otherwise only a warning is logged (lines 316-318). -/
def folderImports (f : OpFolder) : Bool :=
  f.hasOperationXml || hasMainViewModel f.files

/-- Source `os.walk(path)` at line 252: the walk of one ordered path visits every
folder whose path lies under it, the path itself included. -/
def walkUnder (root : List String) (folders : List OpFolder) : List OpFolder :=
  folders.filter (fun f => root.isPrefixOf f.path)

/-- How many times the folder at `target` results in an imported operation
during `import_project_operations` (lines 249-320): the outer loop visits
every ordered path, and for each of them the inner `os.walk` processes
every folder under it that takes one of the two import branches. -/
def import_count (folders : List OpFolder) (target : List String) : Nat :=
  ((get_directory_ordered_list folders).map (fun p =>
    ((walkUnder p folders).filter
      (fun f => folderImports f && f.path == target)).length)).sum

/-- Two nested legacy operation folders: the inner one qualifies on its
own and also lies under the outer one. -/
def nestedFolders : List OpFolder :=
  [⟨["Proj", "OpA"], true, 5, []⟩,
   ⟨["Proj", "OpA", "OpB"], true, 7, []⟩]

/-- C6 counterexample: with one qualifying folder nested inside another,
the inner folder is imported twice, once by the `os.walk` of its ancestor
and once as its own entry of the ordered sequence, refuting the claim that
each qualifying folder is processed exactly once. -/
theorem c6_nested_folder_imported_twice :
    import_count nestedFolders ["Proj", "OpA", "OpB"] = 2 ∧
    ¬ import_count nestedFolders ["Proj", "OpA", "OpB"] = 1 := by
  constructor
  · decide
  · decide

theorem firstViewModelDate_isSome_of_hasMain (files : List H5FileKind) :
    hasMainViewModel files = true → ∃ d, firstViewModelDate files = some d := by
  induction files with
  | nil => intro h; simp [hasMainViewModel] at h
  | cons k rest ih =>
    intro h
    cases k with
    | viewModel d known => exact ⟨d, rfl⟩
    | dataProduct => exact ih h
    | unreadable => exact ih h

theorem folderKey_isSome_of_imports {f : OpFolder}
    (h : folderImports f = true) : ∃ d, folderKey f = some d := by
  unfold folderImports at h
  cases hx : f.hasOperationXml with
  | true => exact ⟨f.xmlCreateDate, by simp [folderKey, hx]⟩
  | false =>
    rw [hx, Bool.false_or] at h
    rcases firstViewModelDate_isSome_of_hasMain f.files h with ⟨d, hd⟩
    exact ⟨d, by simp [folderKey, hx, hd]⟩

theorem keyedPaths_sublist (folders : List OpFolder) :
    ((keyedFolders folders).map Prod.fst).Sublist (folders.map OpFolder.path) := by
  induction folders with
  | nil => simp [keyedFolders]
  | cons f rest ih =>
    simp only [keyedFolders, List.filterMap_cons, List.map_cons]
    cases hk : folderKey f with
    | none => exact List.Sublist.cons _ ih
    | some d => exact List.Sublist.cons₂ _ ih

theorem sum_ite_count (target : List String) (l : List (List String)) :
    (l.map (fun p => if p = target then 1 else 0)).sum
      = List.countP (fun q => decide (q = target)) l := by
  induction l with
  | nil => simp
  | cons p rest ih =>
    simp only [List.map_cons, List.sum_cons, ih, List.countP_cons]
    by_cases hp : p = target
    · simp [hp, Nat.add_comm]
    · simp [hp]

theorem countP_eq_of_nodup_mem {α : Type} [DecidableEq α] {a : α} {l : List α}
    (hnodup : l.Nodup) (hmem : a ∈ l) :
    List.countP (fun q => decide (q = a)) l = 1 := by
  induction l with
  | nil => cases hmem
  | cons b rest ih =>
    rw [List.countP_cons]
    rcases List.mem_cons.mp hmem with rfl | hrest
    · have hnot : a ∉ rest := (List.nodup_cons.mp hnodup).1
      have hz : List.countP (fun q => decide (q = a)) rest = 0 :=
        List.countP_eq_zero.mpr
          (fun x hx hdec => hnot (of_decide_eq_true hdec ▸ hx))
      simp [hz]
    · have hb : b ≠ a := by
        intro hba
        subst hba
        exact (List.nodup_cons.mp hnodup).1 hrest
      rw [ih (List.nodup_cons.mp hnodup).2 hrest]
      simp [hb]

/-- C6 amended: each visited folder is handled by exactly one of the two
mutually exclusive branches (the legacy XML branch when `Operation.xml` is
present, otherwise the modern view-model branch), and each qualifying
folder is imported exactly once per call provided no folder of the walk is
nested inside another one; the counterexample shows the original claim
fails for nested qualifying folders, which are imported once per
qualifying ancestor (lines 249-320). -/
theorem c6_each_folder_imported_once_when_flat
    (folders : List OpFolder) (target : OpFolder)
    (hmem : target ∈ folders)
    (himp : folderImports target = true)
    (hnodup : (folders.map OpFolder.path).Nodup)
    (hflat : ∀ f ∈ folders, ∀ g ∈ folders,
      f.path.isPrefixOf g.path = true → f = g) :
    (∀ f : OpFolder, folderImports f = (legacyPathTaken f || modernPathTaken f)) ∧
    (∀ f : OpFolder, ¬(legacyPathTaken f = true ∧ modernPathTaken f = true)) ∧
    import_count folders target.path = 1 := by
  refine ⟨?_, ?_, ?_⟩
  · intro f
    unfold folderImports legacyPathTaken modernPathTaken
    cases f.hasOperationXml <;> simp
  · intro f hf
    rcases hf with ⟨h1, h2⟩
    unfold legacyPathTaken at h1
    unfold modernPathTaken at h2
    rw [h1] at h2
    simp at h2
  · have hterm : ∀ p ∈ get_directory_ordered_list folders,
        ((walkUnder p folders).filter
          (fun f => folderImports f && f.path == target.path)).length
          = if p = target.path then 1 else 0 := by
      intro p hp
      rw [walkUnder, ← List.countP_eq_length_filter, List.countP_filter]
      by_cases hpt : p = target.path
      · subst hpt
        rw [if_pos rfl]
        have hcong : List.countP
            (fun f => (folderImports f && f.path == target.path)
              && target.path.isPrefixOf f.path) folders
            = List.countP (fun f => decide (f.path = target.path)) folders := by
          refine List.countP_congr ?_
          intro x hx
          constructor
          · intro hpred
            simp only [Bool.and_eq_true] at hpred
            exact decide_eq_true (eq_of_beq hpred.1.2)
          · intro hdec
            have hxpath : x.path = target.path := of_decide_eq_true hdec
            have hx_eq : x = target :=
              List.inj_on_of_nodup_map hnodup hx hmem hxpath
            simp only [Bool.and_eq_true]
            refine ⟨⟨?_, beq_iff_eq.mpr hxpath⟩, ?_⟩
            · rw [hx_eq]; exact himp
            · rw [hxpath]
              exact List.isPrefixOf_iff_prefix.mpr (List.prefix_refl _)
        rw [hcong]
        have hmap := List.countP_map (fun q => decide (q = target.path))
          OpFolder.path folders
        rw [show (fun f : OpFolder => decide (f.path = target.path))
            = ((fun q => decide (q = target.path)) ∘ OpFolder.path) from rfl, ← hmap]
        exact countP_eq_of_nodup_mem hnodup
          (List.mem_map.mpr ⟨target, hmem, rfl⟩)
      · rw [if_neg hpt]
        rw [List.countP_eq_zero]
        intro f hf hpred
        simp only [Bool.and_eq_true] at hpred
        rcases hpred with ⟨⟨himpf, hbe⟩, hpre⟩
        have hfpath : f.path = target.path := eq_of_beq hbe
        rcases List.mem_map.mp hp with ⟨pr, hpr, hfst⟩
        rcases keyed_elim
            ((List.perm_insertionSort dateLe (keyedFolders folders)).mem_iff.mp hpr)
          with ⟨g, hg, hgpath, hgkey⟩
        have hgpre : g.path.isPrefixOf f.path = true := by
          rw [hgpath, hfst]; exact hpre
        have hgf : g = f := hflat g hg f hf hgpre
        exact hpt (by rw [← hfst, ← hgpath, hgf, hfpath])
    unfold import_count
    rw [List.map_congr_left hterm, sum_ite_count]
    rcases folderKey_isSome_of_imports himp with ⟨d, hkt⟩
    unfold get_directory_ordered_list
    rw [List.Perm.countP_eq _
      ((List.perm_insertionSort dateLe (keyedFolders folders)).map Prod.fst)]
    exact countP_eq_of_nodup_mem
      (List.Nodup.sublist (keyedPaths_sublist folders) hnodup)
      (List.mem_map.mpr ⟨(target.path, d), keyed_mem_of_folderKey hmem hkt, rfl⟩)

/-- A flat walk: two sibling operation folders, one legacy, one modern. -/
def flatFolders : List OpFolder :=
  [⟨["Proj", "OpA"], true, 5, []⟩,
   ⟨["Proj", "OpB"], false, 0, [H5FileKind.viewModel 3 true]⟩]

theorem c6_each_folder_imported_once_witness :
    (∀ f : OpFolder, folderImports f = (legacyPathTaken f || modernPathTaken f)) ∧
    (∀ f : OpFolder, ¬(legacyPathTaken f = true ∧ modernPathTaken f = true)) ∧
    import_count flatFolders (OpFolder.mk ["Proj", "OpA"] true 5 []).path = 1 :=
  c6_each_folder_imported_once_when_flat flatFolders
    (OpFolder.mk ["Proj", "OpA"] true 5 [])
    (by decide) (by decide) (by decide) (by decide)

/-- One file of an operation folder as `_load_datatypes_from_operation_folder`
sees it (lines 176-197): its name, whether it ends with the TVB storage
extension (line 183), and whether `FilesUpdateManager.upgrade_file`
succeeds or raises `IncompatibleFileManagerException` (lines 186-187). -/
structure OperationH5File where
  name : String
  isStorageFile : Bool
  upgradeOk : Bool
deriving DecidableEq

/-- Body of the loop of `_load_datatypes_from_operation_folder`: the
accumulator holds the loaded datatype names and the names of the files
removed from disk; a non-storage file is skipped, an upgraded file is
loaded and appended (lines 186-191), an incompatible one is removed with a
warning (lines 193-196). -/
def loadFolderStep (acc : List String × List String) (f : OperationH5File) :
    List String × List String :=
  if f.isStorageFile then
    if f.upgradeOk then (acc.1 ++ [f.name], acc.2)
    else (acc.1, acc.2 ++ [f.name])
  else acc

/-- Source `_load_datatypes_from_operation_folder` (lines 176-197): returns the
loaded datatype names and the file names deleted from disk. -/
def load_datatypes_from_operation_folder (files : List OperationH5File) :
    List String × List String :=
  files.foldl loadFolderStep ([], [])

theorem loadFolderStep_fold (files : List OperationH5File)
    (acc : List String × List String) :
    files.foldl loadFolderStep acc
      = (acc.1 ++ (files.filter (fun f => f.isStorageFile && f.upgradeOk)).map
            OperationH5File.name,
         acc.2 ++ (files.filter (fun f => f.isStorageFile && !f.upgradeOk)).map
            OperationH5File.name) := by
  induction files generalizing acc with
  | nil => simp
  | cons f rest ih =>
    rw [List.foldl_cons, ih]
    rcases hs : f.isStorageFile with _ | _ <;>
      rcases hu : f.upgradeOk with _ | _ <;>
      simp [loadFolderStep, hs, hu]

/-- C7: a storage file that fails format upgrade with the incompatible
signal is deleted from disk with a warning, every other storage file of
the folder is still loaded and returned, no exception leaves the
folder-loading step, and a folder with one incompatible file among N
storage files yields exactly the N-1 upgraded entities (lines 176-197). -/
theorem c7_incompatible_file_dropped_rest_loaded (files : List OperationH5File) :
    (load_datatypes_from_operation_folder files).1
      = (files.filter (fun f => f.isStorageFile && f.upgradeOk)).map
          OperationH5File.name ∧
    (load_datatypes_from_operation_folder files).2
      = (files.filter (fun f => f.isStorageFile && !f.upgradeOk)).map
          OperationH5File.name ∧
    (load_datatypes_from_operation_folder files).1.length
        + (load_datatypes_from_operation_folder files).2.length
      = (files.filter (fun f => f.isStorageFile)).length := by
  unfold load_datatypes_from_operation_folder
  rw [loadFolderStep_fold]
  refine ⟨by simp, by simp, ?_⟩
  simp only [List.nil_append, List.length_map]
  induction files with
  | nil => simp
  | cons f rest ih =>
    rcases hs : f.isStorageFile with _ | _ <;>
      rcases hu : f.upgradeOk with _ | _ <;>
      simp [hs, hu, List.filter_cons] <;> omega

/-- The figure metadata parsed by `XMLReader(...).read_metadata()` at line
326: the recorded image path and the gid of the originating operation. -/
structure FigureMetadata where
  file_path : String
  fk_from_operation : String
deriving DecidableEq

/-- The `ResultFigure` row built and stored by `_import_image`
(lines 333-338). -/
structure ResultFigureRow where
  file_path : String
  fk_op_id : Option Nat
  fk_user_id : Nat
  fk_project_id : Nat
deriving DecidableEq

/-- Source `_import_image` (lines 322-344).  `imageFileExists` is whether the
sibling image file referenced by the metadata exists on disk (line 328);
`operationByGid` is the result of `dao.get_operation_by_gid` for the
recorded operation gid (line 332, the id when resolved, `none` when not).
A missing image returns without storing anything (lines 328-330); an
unresolved operation stores the figure with a null operation reference
(line 333). -/
def import_image (imageFileExists : Bool) (operationByGid : Option Nat)
    (userId projectId : Nat) (figure_dict : FigureMetadata) :
    Option ResultFigureRow :=
  if !imageFileExists then none
  else some { file_path := figure_dict.file_path
              fk_op_id := operationByGid
              fk_user_id := userId
              fk_project_id := projectId }

/-- C8: a missing image file makes `_import_image` skip the figure with a
warning and store nothing; an unresolvable originating operation still
stores the figure, with a null operation reference; a resolved operation
is referenced by its id (lines 322-344). -/
theorem c8_image_missing_skips_unresolved_op_nulls
    (operationByGid : Option Nat) (userId projectId : Nat)
    (figure_dict : FigureMetadata) :
    import_image false operationByGid userId projectId figure_dict = none ∧
    import_image true none userId projectId figure_dict
      = some { file_path := figure_dict.file_path, fk_op_id := none
               fk_user_id := userId, fk_project_id := projectId } ∧
    ∀ oid, import_image true (some oid) userId projectId figure_dict
      = some { file_path := figure_dict.file_path, fk_op_id := some oid
               fk_user_id := userId, fk_project_id := projectId } :=
  ⟨rfl, rfl, fun oid => rfl⟩

/-- Content of one H5 data file as `load_datatype_from_file` classifies it
(lines 346-391): its gid and whether its H5 class is
`BurstConfigurationH5` (line 356). -/
structure H5Content where
  gid : String
  isBurst : Bool
deriving DecidableEq

/-- A `DataTypeGroup` row, as referenced by
`datatype_index.fk_datatype_group = datatype_group.id` (line 377). -/
structure DataTypeGroupRow where
  id : Nat
deriving DecidableEq

/-- The entity `load_datatype_from_file` returns: a `BurstConfiguration`
(lines 356-366) or a DataType index (lines 367-383). -/
inductive LoadedEntity
  | burst (projectId : Nat) (fk_simulation : Nat)
  | index (gid : String) (fk_datatype_group : Option Nat) (fk_from_operation : Nat)
deriving DecidableEq

/-- Source `load_datatype_from_file` (lines 346-391), restricted to the fields the
group-reference claim is about: the index receives
`fk_datatype_group = datatype_group.id` only when the `datatype_group`
argument is not `None` (lines 376-377). -/
def load_datatype_from_file (content : H5Content) (op_id : Nat)
    (datatype_group : Option DataTypeGroupRow) (current_project_id : Nat) :
    LoadedEntity :=
  if content.isBurst then LoadedEntity.burst current_project_id op_id
  else LoadedEntity.index content.gid
    (datatype_group.map DataTypeGroupRow.id) op_id

/-- The modern import path loads every data-product file with
`datatype_group=dt_group` where `dt_group = None` (lines 297, 306-310). -/
def modern_path_load_datatypes (op_id project_id : Nat)
    (dt_paths : List H5Content) : List LoadedEntity :=
  dt_paths.map (fun c => load_datatype_from_file c op_id none project_id)

/-- The parent-group reference of a loaded entity, when it has one. -/
def entityGroupRef : LoadedEntity → Option Nat
  | LoadedEntity.burst _ _ => none
  | LoadedEntity.index _ g _ => g

/-- C9: every DataType loaded through the modern view-model path is loaded
with `datatype_group = None` (`dt_group = None`, line 297), so none of the
resulting entities carries a parent DataTypeGroup reference
(lines 290-315 together with lines 376-377). -/
theorem c9_modern_path_never_sets_group
    (op_id project_id : Nat) (dt_paths : List H5Content) :
    ((modern_path_load_datatypes op_id project_id dt_paths).all
      (fun e => (entityGroupRef e).isNone)) = true := by
  simp only [modern_path_load_datatypes, List.all_eq_true]
  intro e he
  rcases List.mem_map.mp he with ⟨c, hc, rfl⟩
  unfold load_datatype_from_file
  rcases hb : c.isBurst with _ | _ <;> simp [hb, entityGroupRef]

theorem mem_insertPath_self (p : String) (fs : FS) : p ∈ insertPath p fs := by
  unfold insertPath
  by_cases h : p ∈ fs <;> simp [h]

theorem mem_insertPath_of_mem {p : String} (q : String) {fs : FS}
    (h : p ∈ fs) : p ∈ insertPath q fs := by
  unfold insertPath
  by_cases hq : q ∈ fs <;> simp [hq, h]

/-- Result of `import_simulator_configuration_zip`: the staging directory
path on success, a raised `ServicesBaseException` on failure. -/
inductive SimZipResult
  | ok (stagingDir : String)
  | err (e : ImportError)
deriving DecidableEq

/-- Source `import_simulator_configuration_zip` (lines 456-474): copy the archive
next to the staging path (line 468), unpack it and return the staging
directory (lines 471-472), or raise `ServicesBaseException` on a bad
archive (lines 473-474).  `stagedPartly` is whether the failing
`unpack_zip` created part of the staging directory before raising.  The
function has no cleanup: it removes nothing in either outcome. -/
def import_simulator_configuration_zip (fs0 : FS)
    (unzipFails stagedPartly : Bool) : SimZipResult × FS :=
  let fs1 := insertPath uqFileName fs0
  if unzipFails then
    (SimZipResult.err
      (ImportError.servicesBaseException "Could not process the given ZIP file..."),
     if stagedPartly then insertPath tvbTempFolder fs1 else fs1)
  else
    (SimZipResult.ok tvbTempFolder, insertPath tvbTempFolder fs1)

/-- C10: `import_simulator_configuration_zip` never deletes the archive
copy it makes: on success it returns the staging directory path with the
copied archive still on disk, and on extraction failure it raises
`ServicesBaseException` and leaves both the copied archive and any partly
created staging directory on disk (lines 456-474). -/
theorem c10_simulator_zip_leaves_artifacts
    (fs0 : FS) (unzipFails stagedPartly : Bool) :
    import_simulator_configuration_zip fs0 false stagedPartly
      = (SimZipResult.ok tvbTempFolder,
         insertPath tvbTempFolder (insertPath uqFileName fs0)) ∧
    import_simulator_configuration_zip fs0 true true
      = (SimZipResult.err
          (ImportError.servicesBaseException "Could not process the given ZIP file..."),
         insertPath tvbTempFolder (insertPath uqFileName fs0)) ∧
    import_simulator_configuration_zip fs0 true false
      = (SimZipResult.err
          (ImportError.servicesBaseException "Could not process the given ZIP file..."),
         insertPath uqFileName fs0) ∧
    uqFileName ∈ (import_simulator_configuration_zip fs0 unzipFails stagedPartly).2 := by
  refine ⟨rfl, rfl, rfl, ?_⟩
  unfold import_simulator_configuration_zip
  rcases unzipFails with _ | _
  · exact mem_insertPath_of_mem _ (mem_insertPath_self _ _)
  · rcases stagedPartly with _ | _
    · exact mem_insertPath_self _ _
    · exact mem_insertPath_of_mem _ (mem_insertPath_self _ _)
